import Mathlib

/-!
Verification of the harmonyparser repository: a read-only object model over
Harmony .xstage and Storyboard Pro .sboard XML documents.

The XML tree is embedded as a mutual inductive (an element together with its
ordered child list), and each Python accessor of the two parser modules
(harmonyparser/parser.py and harmonyparser/oldparser.py) is translated into an
executable Lean function over that tree.  Fallible Python operations (raising
KeyError, AttributeError, StopIteration, the three domain lookup errors, and
so on) are modelled with the Except monad; Python generators that can raise
while being consumed are modelled as lists of Except values, with an okTake
function giving the prefix actually yielded before any exception.
-/

/-- Python exception kinds raised by the parser code paths modelled here. -/
inductive PyErr where
  | elementNotFound
  | columnNotFound
  | childNotFound
  | keyError
  | attributeError
  | stopIteration
  | valueError
  | assertionError
  | indexError
  deriving DecidableEq, Repr

mutual

/-- An XML element: tag, attribute list (document order), ordered children.
Mirrors xml.etree Element.  A mutual inductive is used (instead of a nested
List) so that recursion over the tree stays structural and computable. -/
inductive XMLElem where
  | mk (tag : String) (attrs : List (String × String)) (children : XMLList)
  deriving DecidableEq, Repr

/-- The ordered list of children of an XML element. -/
inductive XMLList where
  | nil
  | cons (head : XMLElem) (tail : XMLList)
  deriving DecidableEq, Repr

end

def XMLList.toList : XMLList → List XMLElem
  | .nil => []
  | .cons h t => h :: t.toList

def XMLElem.tag : XMLElem → String
  | .mk t _ _ => t

def XMLElem.attrs : XMLElem → List (String × String)
  | .mk _ a _ => a

def XMLElem.children : XMLElem → List XMLElem
  | .mk _ _ cs => cs.toList

/-- Element.attrib lookup: the value bound to the key, if any (ElementTree
keeps attribute keys unique, so the first binding is the binding). -/
def XMLElem.attrGet (e : XMLElem) (k : String) : Option String :=
  (e.attrs.find? (fun p => decide (p.1 = k))).map (fun p => p.2)

/-- Python element.attrib[k]: the value, or a KeyError. -/
def attrE (e : XMLElem) (k : String) : Except PyErr String :=
  match e.attrGet k with
  | some v => .ok v
  | none => .error .keyError

/-- Python truthiness of an Element: an element is falsy iff it has no
children (len(element) == 0). -/
def XMLElem.truthy (e : XMLElem) : Bool :=
  !e.children.isEmpty

mutual

/-- All strict descendants of an element in document (pre-) order. -/
def XMLElem.descendants : XMLElem → List XMLElem
  | .mk _ _ cs => cs.descList

/-- Descendants-or-self of every element of the list, in document order. -/
def XMLList.descList : XMLList → List XMLElem
  | .nil => []
  | .cons c rest => c :: (c.descendants ++ rest.descList)

end

/-- Predicate: element has the given value for the given attribute key. -/
def attrIs (k v : String) (c : XMLElem) : Bool :=
  decide (c.attrGet k = some v)

/-- Predicate: element has the given tag. -/
def tagIs (t : String) (c : XMLElem) : Bool :=
  decide (c.tag = t)

/-- ElementTree path step: the children with a given tag, in order. -/
def childrenTag (e : XMLElem) (t : String) : List XMLElem :=
  e.children.filter (tagIs t)

/-- ElementTree find of a two-step path with an attribute predicate on the
last step, such as ./elements/element[@id='v']: first match in document
order. -/
def findChildPathAttr (e : XMLElem) (t1 t2 k v : String) : Option XMLElem :=
  (((childrenTag e t1).flatMap (fun x => childrenTag x t2)).find? (attrIs k v))

/-- ElementTree find of a three-step tag path such as
./attrs/drawing/element: first match in document order. -/
def findPath3 (e : XMLElem) (t1 t2 t3 : String) : Option XMLElem :=
  ((((childrenTag e t1).flatMap (fun x => childrenTag x t2)).flatMap
      (fun x => childrenTag x t3))).head?

/-- ElementTree find of .//*[@k='v']: first strict descendant carrying the
attribute value, in document order. -/
def findDescAttr (e : XMLElem) (k v : String) : Option XMLElem :=
  e.descendants.find? (attrIs k v)

/-- Element.iter(t): self-or-descendants with the given tag, document
order. -/
def iterTag (e : XMLElem) (t : String) : List XMLElem :=
  (e :: e.descendants).filter (tagIs t)

/-- How many tree nodes under e match attribute k = v (used to state the
zero-matches conditions of the lookup claims). -/
def countMatches (e : XMLElem) (k v : String) : Nat :=
  (e.descendants.filter (attrIs k v)).length

/-- The prefix of a generator run that is actually yielded: each produced
item up to (excluding) the first raised exception. -/
def okTake {α : Type} : List (Except PyErr α) → List α
  | [] => []
  | .ok a :: rest => a :: okTake rest
  | .error _ :: _ => []

instance exceptDecEq {ε α : Type} [DecidableEq ε] [DecidableEq α] :
    DecidableEq (Except ε α) := fun x y =>
  match x, y with
  | .ok a, .ok b =>
    if h : a = b then .isTrue (by rw [h])
    else .isFalse (fun hh => h (Except.ok.inj hh))
  | .error e, .error f =>
    if h : e = f then .isTrue (by rw [h])
    else .isFalse (fun hh => h (Except.error.inj hh))
  | .ok _, .error _ => .isFalse (fun hh => Except.noConfusion hh)
  | .error _, .ok _ => .isFalse (fun hh => Except.noConfusion hh)

/-! ## The node-graph API of harmonyparser/parser.py -/

/-- A graph-node wrapper: the wrapped XML element plus the chain of wrapped
XML elements of its ancestors, nearest first (the Python object holds a
parent reference; the chain of ancestor elements is that reference chain,
with the empty chain for the synthesized root). -/
structure HGraphNode where
  xml : XMLElem
  parentChain : List XMLElem
  deriving DecidableEq, Repr

/-- HGraphNode.parent: none for the synthesized root, otherwise the parent
wrapper. -/
def HGraphNode.parent (n : HGraphNode) : Option HGraphNode :=
  match n.parentChain with
  | [] => none
  | p :: rest => some ⟨p, rest⟩

/-- HGraphNode.name: self.xml_node.attrib["name"], a KeyError when absent. -/
def HGraphNode.nameE (n : HGraphNode) : Except PyErr String :=
  attrE n.xml "name"

/-- HGraphNode.type: the fixed "ROOT" sentinel when there is no parent,
otherwise the type attribute of the wrapped element. -/
def HGraphNode.nodeType (n : HGraphNode) : Except PyErr String :=
  match n.parentChain with
  | [] => .ok "ROOT"
  | _ :: _ => attrE n.xml "type"

/-- HGraphNode.is_root: true iff the parent reference is None. -/
def HGraphNode.is_root (n : HGraphNode) : Bool :=
  n.parentChain.isEmpty

/-- Recursion of get_path over the ancestor chain, current element last:
the current parser builds prefix-slash-name with an empty prefix at the
root. -/
def getPathChain : List XMLElem → XMLElem → Except PyErr String
  | [], x => do
    let nm ← attrE x "name"
    pure ("/" ++ nm)
  | p :: rest, x => do
    let pre ← getPathChain rest p
    let nm ← attrE x "name"
    pure (pre ++ "/" ++ nm)

/-- HGraphNode.get_path of the current parser (src/harmonyparser/parser.py
in the src layout): an empty prefix at the root, then slash-joined names, so
the result always starts with a slash. -/
def HGraphNode.get_path (n : HGraphNode) : Except PyErr String :=
  getPathChain n.parentChain n.xml

/-- Recursion of the legacy get_path variant, which returns the bare name at
the root. -/
def getPathChainLegacy : List XMLElem → XMLElem → Except PyErr String
  | [], x => attrE x "name"
  | p :: rest, x => do
    let pre ← getPathChainLegacy rest p
    let nm ← attrE x "name"
    pure (pre ++ "/" ++ nm)

/-- The legacy HGraphNode.get_path (flat-layout harmonyparser/parser.py):
the root path is the bare root name. -/
def HGraphNode.get_path_legacy (n : HGraphNode) : Except PyErr String :=
  getPathChainLegacy n.parentChain n.xml

/-- HGraphNode.get_child: find the first descendant (any depth, any tag)
whose name attribute is the searched name; the found element then passes a
Python truthiness test (if not current_node), so a childless match is
treated exactly like no match and raises ChildNotFoundError. -/
def HGraphNode.get_child (n : HGraphNode) (childName : String) :
    Except PyErr HGraphNode :=
  match findDescAttr n.xml "name" childName with
  | none => .error .childNotFound
  | some c =>
    if c.truthy then .ok ⟨c, n.xml :: n.parentChain⟩
    else .error .childNotFound

/-- The records of ./linkedlist//* of the parent element whose attribute k
equals v, in document order. -/
def linkRecords (parentXml : XMLElem) (k v : String) : List XMLElem :=
  ((childrenTag parentXml "linkedlist").flatMap XMLElem.descendants).filter
    (attrIs k v)

/-- HGraphNode.iter_output_nodes: nothing for the root; otherwise, for each
link record whose out-name is this node's name, resolve the record's in-name
through the parent's get_child.  Each list entry models one lazily produced
item of the generator (ok) or the exception raised at that point. -/
def HGraphNode.iter_output_nodes (n : HGraphNode) :
    List (Except PyErr HGraphNode) :=
  match n.parentChain with
  | [] => []
  | pXml :: rest =>
    match n.xml.attrGet "name" with
    | none => [.error .keyError]
    | some nm =>
      (linkRecords pXml "out" nm).map (fun r =>
        match r.attrGet "in" with
        | none => .error .keyError
        | some inName => HGraphNode.get_child ⟨pXml, rest⟩ inName)

/-- HGraphNode.iter_input_nodes: the mirror image of iter_output_nodes, with
the in and out attribute roles swapped. -/
def HGraphNode.iter_input_nodes (n : HGraphNode) :
    List (Except PyErr HGraphNode) :=
  match n.parentChain with
  | [] => []
  | pXml :: rest =>
    match n.xml.attrGet "name" with
    | none => [.error .keyError]
    | some nm =>
      (linkRecords pXml "in" nm).map (fun r =>
        match r.attrGet "out" with
        | none => .error .keyError
        | some outName => HGraphNode.get_child ⟨pXml, rest⟩ outName)

/-- HScene.get_column_from_id of the current parser: a scoped find with an
explicit is-None check, raising ColumnNotFoundError on zero matches. -/
def getColumnFromId (sceneRoot : XMLElem) (columnId : String) :
    Except PyErr XMLElem :=
  match findChildPathAttr sceneRoot "columns" "column" "id" columnId with
  | none => .error .columnNotFound
  | some c => .ok c

/-- HScene.get_element_from_id of the current parser: explicit is-None
check, raising ElementNotFoundError on zero matches. -/
def getElementFromId (root : XMLElem) (elementId : String) :
    Except PyErr XMLElem :=
  match findChildPathAttr root "elements" "element" "id" elementId with
  | none => .error .elementNotFound
  | some e => .ok e

/-- The legacy HScene.get_element_from_id: the same find, but guarded by
Python truthiness (if not xml_element), so a childless match raises. -/
def getElementFromIdLegacy (root : XMLElem) (elementId : String) :
    Except PyErr XMLElem :=
  match findChildPathAttr root "elements" "element" "id" elementId with
  | none => .error .elementNotFound
  | some e => if e.truthy then .ok e else .error .elementNotFound

/-! ## The Storyboard Pro API of harmonyparser/oldparser.py -/

/-- Python str.split with a single-character separator: the groups between
separator occurrences, keeping empty groups. -/
def pySplit (sep : Char) : List Char → List (List Char)
  | [] => [[]]
  | c :: rest =>
    if c = sep then [] :: pySplit sep rest
    else
      match pySplit sep rest with
      | [] => [[c]]
      | g :: gs => (c :: g) :: gs

/-- Numeric value of a digit string (most significant first). -/
def digitsToNat (l : List Char) : Nat :=
  l.foldl (fun a c => 10 * a + (c.toNat - 48)) 0

/-- Python int() restricted to the non-negative decimal literals the .sboard
exposure format uses: a nonempty all-digit string parses to its value,
anything else raises ValueError. -/
def pyIntL (l : List Char) : Except PyErr Nat :=
  if l ≠ [] ∧ l.all Char.isDigit then .ok (digitsToNat l) else .error .valueError

def pyInt (s : String) : Except PyErr Nat :=
  pyIntL s.data

/-- Python substring test (the in operator on strings). -/
def isSubstr (sub : List Char) : List Char → Bool
  | [] => sub.isEmpty
  | c :: rest => sub.isPrefixOf (c :: rest) || isSubstr sub rest

/-- The generator scan of _get_timeline_range: first warpSeq record whose id
attribute equals the searched uid; a record without an id raises KeyError at
the point it is examined, and exhaustion raises StopIteration (next on an
empty generator). -/
def findWarpSeq : List XMLElem → String → Except PyErr XMLElem
  | [], _ => .error .stopIteration
  | w :: rest, uid =>
    match w.attrGet "id" with
    | none => .error .keyError
    | some i => if i = uid then .ok w else findWarpSeq rest uid

/-- oldparser._get_timeline_range: locate the warpSeq record of the uid under
the timeline node, read its exposures attribute, split it on a dash, and
return the single value doubled or the two split values. -/
def get_timeline_range (tl : XMLElem) (uid : String) : Except PyErr (Nat × Nat) := do
  let ws ← findWarpSeq (iterTag tl "warpSeq") uid
  let exposure ← attrE ws "exposures"
  match pySplit '-' exposure.data with
  | [_] => do
    let n ← pyInt exposure
    pure (n, n)
  | a :: b :: _ => do
    let x ← pyIntL a
    let y ← pyIntL b
    pure (x, y)
  | [] => .error .indexError

/-- The generator scan of _get_timeline: first column of type 0; a column
without a type attribute raises KeyError when examined. -/
def findType0 : List XMLElem → Except PyErr XMLElem
  | [] => .error .stopIteration
  | c :: rest =>
    match c.attrGet "type" with
    | none => .error .keyError
    | some t => if t = "0" then .ok c else findType0 rest

/-- oldparser._get_timeline: assert the scene is not the Top node, find its
columns container (an absent container raises AttributeError on the findall
that follows), and take the first column of type 0. -/
def get_timeline (sceneXml : XMLElem) : Except PyErr XMLElem := do
  let nm ← attrE sceneXml "name"
  if nm = "Top" then .error .assertionError
  else
    match (childrenTag sceneXml "columns").head? with
    | none => .error .attributeError
    | some cols => findType0 (childrenTag cols "column")

/-- An SBoardScene wrapper: the scene element and the project root element. -/
structure SBoardScene where
  xml : XMLElem
  projectXml : XMLElem
  deriving DecidableEq, Repr

/-- An SBoardPanel wrapper: the panel element and the owning scene. -/
structure SBoardPanel where
  xml : XMLElem
  scene : SBoardScene
  deriving DecidableEq, Repr

/-- SBoardScene.timeline_range: find the Top scene node of the project (the
uid attribute of the scene is read first, as the Python call evaluates its
arguments before the lookup dereferences the possibly-absent Top node), then
resolve this scene's uid in the global timeline. -/
def SBoardScene.timeline_range (sc : SBoardScene) : Except PyErr (Nat × Nat) := do
  let uid ← attrE sc.xml "id"
  match findChildPathAttr sc.projectXml "scenes" "scene" "name" "Top" with
  | none => .error .attributeError
  | some top => get_timeline_range top uid

/-- SBoardPanel.scene_range: the panel uid resolved in the owning scene's
local timeline (the type-0 column of the scene). -/
def SBoardPanel.scene_range (p : SBoardPanel) : Except PyErr (Nat × Nat) := do
  let tl ← get_timeline p.scene.xml
  let uid ← attrE p.xml "id"
  get_timeline_range tl uid

/-- SBoardPanel.length: int of the panel's nbframes attribute. -/
def SBoardPanel.length (p : SBoardPanel) : Except PyErr Nat := do
  let s ← attrE p.xml "nbframes"
  pyInt s

/-- SBoardPanel.timeline_range: the scene's global range plus the panel's
scene-local range start, the end being start plus the panel length. -/
def SBoardPanel.timeline_range (p : SBoardPanel) : Except PyErr (Nat × Nat) := do
  let str ← p.scene.timeline_range
  let sr ← p.scene_range
  let len ← p.length
  pure (str.1 + sr.1, str.1 + sr.1 + len)

/-- All ./scenes/scene elements of the project, document order. -/
def scenesOf (proj : XMLElem) : List XMLElem :=
  (childrenTag proj "scenes").flatMap (fun x => childrenTag x "scene")

/-- An SBoardLayer wrapper: the module element, the panel element it sits
in, and the project root element. -/
structure SBoardLayer where
  xml : XMLElem
  panelXml : XMLElem
  projectXml : XMLElem
  deriving DecidableEq, Repr

/-- The value wrapped by SBoardLibraryElement as built in SBoardLayer.element:
the dwg element found by name (possibly absent, in which case the Python
wrapper silently wraps None) together with the category element. -/
structure SBLibElementW where
  node : Option XMLElem
  catNode : XMLElem
  deriving DecidableEq, Repr

/-- ElementTree find of ./columns/column[@name='c']/elementSeq: the first
elementSeq child of a matching column, document order. -/
def findColumnElementSeq (panelXml : XMLElem) (colName : String) : Option XMLElem :=
  ((((childrenTag panelXml "columns").flatMap
        (fun x => childrenTag x "column")).filter (attrIs "name" colName)).flatMap
      (fun x => childrenTag x "elementSeq")).head?

/-- ElementTree find of ./elements/element[@id='cid'] on the project root. -/
def findCategoryById (proj : XMLElem) (cid : String) : Option XMLElem :=
  findChildPathAttr proj "elements" "element" "id" cid

/-- ElementTree find of ./drawings/dwg[@name='nm'] on a category element. -/
def findDwgByName (cat : XMLElem) (nm : String) : Option XMLElem :=
  findChildPathAttr cat "drawings" "dwg" "name" nm

/-- SBoardLayer.element: read the drawing reference (an absent drawing node
raises AttributeError on the attribute access), look the referenced column up
in the panel and return None when the elementSeq is absent, then resolve the
category by id (an absent category raises AttributeError when the element
find dereferences it) and wrap the element-by-name result, which may itself
be an absent node. -/
def SBoardLayer.element (l : SBoardLayer) : Except PyErr (Option SBLibElementW) := do
  let dn ← match findPath3 l.xml "attrs" "drawing" "element" with
    | none => Except.error PyErr.attributeError
    | some d => pure d
  let colName ← attrE dn "col"
  match findColumnElementSeq l.panelXml colName with
  | none => pure none
  | some columnNode => do
    let catId ← attrE columnNode "id"
    let elemName ← attrE columnNode "val"
    match findCategoryById l.projectXml catId with
    | none => Except.error PyErr.attributeError
    | some catNode => pure (some ⟨findDwgByName catNode elemName, catNode⟩)

/-- The category extension table of SBoardLibraryCategory, keyed by
lowercase category names. -/
def EXTENSION_BY_LOW_NAME : List (String × String) :=
  [("draw", "tvg"), ("fbxmodels", "fbx"), ("abcmodels", "abc")]

/-- Python dict.get with a default. -/
def dictGetD (d : List (String × String)) (k dflt : String) : String :=
  match d.find? (fun p => decide (p.1 = k)) with
  | some p => p.2
  | none => dflt

/-- SBoardLibraryCategory.extension: the table value for the category's name
as written (the code passes self.name to dict.get unchanged), the name
itself otherwise. -/
def SBoardLibraryCategory.extension (catXml : XMLElem) : Except PyErr String := do
  let n ← attrE catXml "elementName"
  pure (dictGetD EXTENSION_BY_LOW_NAME n n)

/-- An SBoardVideoTrack wrapper: the module element, the Top (timeline)
element and the project root element. -/
structure SBoardVideoTrack where
  xml : XMLElem
  timelineXml : XMLElem
  projectXml : XMLElem
  deriving DecidableEq, Repr

/-- SBoardVideoTrack.uid: the col attribute of the track's drawing
reference. -/
def SBoardVideoTrack.uid (t : SBoardVideoTrack) : Except PyErr String := do
  match findPath3 t.xml "attrs" "drawing" "element" with
  | none => Except.error PyErr.attributeError
  | some d => attrE d "col"

/-- The eager list comprehension over a node list reading one attribute of
each entry, aborting with KeyError at the first entry lacking it. -/
def mapAttrs (k : String) : List XMLElem → Except PyErr (List String)
  | [] => .ok []
  | x :: rest => do
    let v ← attrE x k
    let vs ← mapAttrs k rest
    pure (v :: vs)

/-- The dict comprehension of SBoardVideoTrack.clips: scene id mapped to
scene node, keeping only ids referenced by the track, in scene-table order
(a later duplicate id overwrites an earlier one, as in a Python dict). -/
def buildClipDict (uids : List String) : List XMLElem →
    Except PyErr (List (String × XMLElem))
  | [] => .ok []
  | s :: rest => do
    let i ← attrE s "id"
    let tail ← buildClipDict uids rest
    pure (if uids.contains i then (i, s) :: tail else tail)

/-- Python dict indexing on the association list (last binding wins),
raising KeyError when the key is absent. -/
def dictGetE (pairs : List (String × XMLElem)) (k : String) : Except PyErr XMLElem :=
  match (pairs.reverse.find? (fun p => decide (p.1 = k))).map (fun p => p.2) with
  | none => .error .keyError
  | some v => .ok v

/-- SBoardVideoTrack.clips: resolve the track's column by name in the
timeline, list the id references of its warpSeq children, build the id-keyed
dict of the project's scene table, and yield the dict entry of each id
reference in reference-list order (each yield can raise KeyError for an
unmatched id, modelled as an error entry). -/
def SBoardVideoTrack.clips (t : SBoardVideoTrack) :
    Except PyErr (List (Except PyErr XMLElem)) := do
  let uid ← t.uid
  let column ← match findChildPathAttr t.timelineXml "columns" "column" "name" uid with
    | none => Except.error PyErr.attributeError
    | some c => pure c
  let uids ← mapAttrs "id" (childrenTag column "warpSeq")
  let pairs ← buildClipDict uids (scenesOf t.projectXml)
  pure (uids.map (fun u => dictGetE pairs u))

/-- The dict comprehension of SBoardScene.panels: panel id mapped to panel
node for every project scene whose name contains "panel" (the name is read
first, then the id, each able to raise KeyError). -/
def buildPanelsDict : List XMLElem → Except PyErr (List (String × XMLElem))
  | [] => .ok []
  | s :: rest => do
    let nm ← attrE s "name"
    if isSubstr "panel".data nm.data then do
      let i ← attrE s "id"
      let tail ← buildPanelsDict rest
      pure ((i, s) :: tail)
    else buildPanelsDict rest

/-- Python dict indexing returning an Option (last binding wins). -/
def dictGet? (pairs : List (String × XMLElem)) (k : String) : Option XMLElem :=
  (pairs.reverse.find? (fun p => decide (p.1 = k))).map (fun p => p.2)

/-- SBoardScene.panels: build the project-wide panel dict, take the scene's
local timeline, and yield the dict entry of each warpSeq id reference in
timeline order; each yield can raise KeyError for a missing id attribute or
an unmatched id. -/
def SBoardScene.panels (sc : SBoardScene) :
    Except PyErr (List (Except PyErr SBoardPanel)) := do
  let pairs ← buildPanelsDict (scenesOf sc.projectXml)
  let tl ← get_timeline sc.xml
  pure ((childrenTag tl "warpSeq").map (fun w =>
    match w.attrGet "id" with
    | none => .error .keyError
    | some i =>
      match dictGet? pairs i with
      | none => .error .keyError
      | some px => .ok ⟨px, sc⟩))

/-- The enumerate loop of SBoardPanel.number: walk the yielded panels with a
counter, comparing each panel uid with this panel's uid, returning the
counter plus one at the first match and None at exhaustion; an exception
raised by the enumeration or by a uid read propagates. -/
def numberLoop (p : SBoardPanel) : List (Except PyErr SBoardPanel) → Nat →
    Except PyErr (Option Nat)
  | [], _ => .ok none
  | .error e :: _, _ => .error e
  | .ok q :: rest, k => do
    let qu ← attrE q.xml "id"
    let pu ← attrE p.xml "id"
    if qu = pu then .ok (some (k + 1)) else numberLoop p rest (k + 1)

/-- SBoardPanel.number: position (1-based) of the first scene panel sharing
this panel's uid, None when the enumeration finishes without a match. -/
def SBoardPanel.number (p : SBoardPanel) : Except PyErr (Option Nat) := do
  let l ← p.scene.panels
  numberLoop p l 0

/-- The uid of every yielded panel, defined when the whole enumeration and
every uid read succeed. -/
def extractUids : List (Except PyErr SBoardPanel) → Except PyErr (List String)
  | [] => .ok []
  | .error e :: _ => .error e
  | .ok q :: rest => do
    let u ← attrE q.xml "id"
    let tail ← extractUids rest
    pure (u :: tail)

/-- Index of the first occurrence of a string in a list, if any. -/
def firstIndexOf : List String → String → Option Nat
  | [], _ => none
  | v :: rest, u =>
    if v = u then some 0 else (firstIndexOf rest u).map (fun i => i + 1)

/-! ## Concrete documents used by witnesses and counterexamples -/

/-- Build an XMLList from a Lean list. -/
def xl : List XMLElem → XMLList
  | [] => .nil
  | x :: xs => .cons x (xl xs)

/-- Convenience element constructor over Lean lists. -/
def xe (t : String) (a : List (String × String)) (cs : List XMLElem) : XMLElem :=
  .mk t a (xl cs)

/-- A graph whose only node named Leaf exists but has no child elements. -/
def c1Root : XMLElem :=
  xe "rootgroup" [("name", "Top")]
    [xe "nodeslist" [] [xe "module" [("name", "Leaf"), ("type", "READ")] []]]

/-- A root group element named Top. -/
def c2Top : XMLElem :=
  xe "rootgroup" [("name", "Top")] [xe "nodeslist" [] []]

/-- Two sibling nodes named A (differing in type) plus a node B, with one
link record out=A in=B. -/
def c3xA1 : XMLElem := xe "module" [("name", "A"), ("type", "READ")] [xe "attrs" [] []]
def c3xA2 : XMLElem := xe "module" [("name", "A"), ("type", "WRITE")] [xe "attrs" [] []]
def c3xB : XMLElem := xe "module" [("name", "B"), ("type", "COMPOSITE")] [xe "attrs" [] []]
def c3xP : XMLElem :=
  xe "rootgroup" [("name", "Top")]
    [xe "nodeslist" [] [c3xA1, c3xA2, c3xB],
     xe "linkedlist" [] [xe "link" [("out", "A"), ("in", "B")] []]]

/-- A well-formed graph: Drawing feeding Composite under the Top root. -/
def c3wDraw : XMLElem := xe "module" [("name", "Drawing"), ("type", "READ")] [xe "attrs" [] []]
def c3wComp : XMLElem := xe "module" [("name", "Composite"), ("type", "COMPOSITE")] [xe "attrs" [] []]
def c3wTop : XMLElem :=
  xe "rootgroup" [("name", "Top")]
    [xe "nodeslist" [] [c3wDraw, c3wComp],
     xe "linkedlist" [] [xe "link" [("out", "Drawing"), ("in", "Composite")] []]]

/-- A node named Deep nested inside a group G under the Top root. -/
def c9Deep : XMLElem := xe "module" [("name", "Deep"), ("type", "READ")] [xe "attrs" [] []]
def c9G : XMLElem := xe "group" [("name", "G"), ("type", "PEG")] [xe "nodeslist" [] [c9Deep]]
def c9Top : XMLElem := xe "rootgroup" [("name", "Top")] [xe "nodeslist" [] [c9G]]

/-- A project with a global timeline placing scene sc1 at 10-20, a shot
scene whose local timeline places panel p1 at 5, and the panel node of 8
frames. -/
def c4Panel : XMLElem := xe "scene" [("name", "panel_1"), ("id", "p1"), ("nbframes", "8")] []
def c4Shot : XMLElem :=
  xe "scene" [("name", "shot1"), ("id", "sc1"), ("nbframes", "30")]
    [xe "columns" []
      [xe "column" [("type", "0")]
        [xe "warpSeq" [("id", "p1"), ("exposures", "5")] []]]]
def c4Top : XMLElem :=
  xe "scene" [("name", "Top"), ("id", "TOP")]
    [xe "columns" []
      [xe "column" [("type", "0")]
        [xe "warpSeq" [("id", "sc1"), ("exposures", "10-20")] []]]]
def c4Proj : XMLElem := xe "project" [] [xe "scenes" [] [c4Top, c4Shot, c4Panel]]

/-- A timeline column holding a single-frame and a dashed-pair exposure
record. -/
def c5Col : XMLElem :=
  xe "column" [("type", "0")]
    [xe "warpSeq" [("id", "x1"), ("exposures", "7")] [],
     xe "warpSeq" [("id", "x2"), ("exposures", "12-34")] []]

/-- A layer whose drawing reference names column COL1. -/
def c6LayerX : XMLElem :=
  xe "module" [("name", "L"), ("type", "READ")]
    [xe "attrs" [] [xe "drawing" [] [xe "element" [("col", "COL1")] []]]]

/-- A panel without any matching column sequence for COL1. -/
def c6PanelNoCol : XMLElem := xe "scene" [("name", "panel_1"), ("id", "p1")] [xe "columns" [] []]
def c6Proj0 : XMLElem := xe "project" [] []

/-- A fully linked library: category cat1 holding drawing el1, referenced by
the panel's COL1 column sequence. -/
def c6Dwg : XMLElem := xe "dwg" [("name", "el1")] []
def c6Cat : XMLElem :=
  xe "element" [("id", "cat1"), ("elementName", "draw")] [xe "drawings" [] [c6Dwg]]
def c6ProjF : XMLElem := xe "project" [] [xe "elements" [] [c6Cat]]
def c6PanelF : XMLElem :=
  xe "scene" [("name", "panel_1"), ("id", "p1")]
    [xe "columns" []
      [xe "column" [("name", "COL1")] [xe "elementSeq" [("id", "cat1"), ("val", "el1")] []]]]

/-- A project with two clip scenes s1 and s2 whose track column references
them in the opposite order. -/
def c7s1 : XMLElem := xe "scene" [("name", "shot1"), ("id", "s1")] []
def c7s2 : XMLElem := xe "scene" [("name", "shot2"), ("id", "s2")] []
def c7Proj : XMLElem := xe "project" [] [xe "scenes" [] [c7s1, c7s2]]
def c7Timeline : XMLElem :=
  xe "scene" [("name", "Top")]
    [xe "columns" []
      [xe "column" [("name", "COLV")]
        [xe "warpSeq" [("id", "s2")] [], xe "warpSeq" [("id", "s1")] []]]]
def c7Track : XMLElem :=
  xe "module" [("name", "VT")]
    [xe "attrs" [] [xe "drawing" [] [xe "element" [("col", "COLV")] []]]]

/-- Two category elements whose names differ only in letter case. -/
def c8CatUpper : XMLElem := xe "element" [("id", "c1"), ("elementName", "Draw")] []
def c8CatLower : XMLElem := xe "element" [("id", "c2"), ("elementName", "draw")] []

/-- A scene with two panels p1 and p2 referenced by its local timeline. -/
def c10p1 : XMLElem := xe "scene" [("name", "panel_1"), ("id", "p1"), ("nbframes", "3")] []
def c10p2 : XMLElem := xe "scene" [("name", "panel_2"), ("id", "p2"), ("nbframes", "4")] []
def c10Shot : XMLElem :=
  xe "scene" [("name", "shot1"), ("id", "sc1")]
    [xe "columns" []
      [xe "column" [("type", "0")]
        [xe "warpSeq" [("id", "p1")] [], xe "warpSeq" [("id", "p2")] []]]]
def c10Proj : XMLElem := xe "project" [] [xe "scenes" [] [c10Shot, c10p1, c10p2]]

/-- A panel node that no scene timeline references. -/
def c10Ghost : XMLElem := xe "scene" [("name", "panel_9"), ("id", "p9")] []

/-- The scene and panel wrappers over the c4 project. -/
def c4Scene : SBoardScene := ⟨c4Shot, c4Proj⟩
def c4PanelW : SBoardPanel := ⟨c4Panel, c4Scene⟩

/-- The layer wrapper whose column hop finds nothing. -/
def c6LayerNoCol : SBoardLayer := ⟨c6LayerX, c6PanelNoCol, c6Proj0⟩

/-- The layer wrapper whose three hops all resolve. -/
def c6LayerFull : SBoardLayer := ⟨c6LayerX, c6PanelF, c6ProjF⟩

/-- The video-track wrapper over the c7 project. -/
def c7TrackW : SBoardVideoTrack := ⟨c7Track, c7Timeline, c7Proj⟩

/-- The scene and panel wrappers over the c10 project. -/
def c10Scene : SBoardScene := ⟨c10Shot, c10Proj⟩
def c10PanelW : SBoardPanel := ⟨c10p2, c10Scene⟩
def c10GhostW : SBoardPanel := ⟨c10Ghost, c10Scene⟩

/-- Graph-node wrappers over the duplicate-name document: the second node
named A, and the node named B, both direct children of the root. -/
def c3P : HGraphNode := ⟨c3xP, []⟩
def c3NodeA : HGraphNode := ⟨c3xA2, [c3xP]⟩
def c3NodeB : HGraphNode := ⟨c3xB, [c3xP]⟩

/-- Graph-node wrappers over the well-formed document. -/
def c3wP : HGraphNode := ⟨c3wTop, []⟩
def c3wA : HGraphNode := ⟨c3wDraw, [c3wTop]⟩
def c3wB : HGraphNode := ⟨c3wComp, [c3wTop]⟩

/-! ## General lemmas -/

theorem exbind_ok {α β : Type} (a : α) (f : α → Except PyErr β) :
    (Except.ok a >>= f) = f a := rfl

theorem exbind_err {α β : Type} (e : PyErr) (f : α → Except PyErr β) :
    ((Except.error e : Except PyErr α) >>= f) = .error e := rfl

theorem attrIs_iff {k v : String} {c : XMLElem} :
    attrIs k v c = true ↔ c.attrGet k = some v := by
  simp [attrIs]

theorem findDescAttr_attr {e : XMLElem} {k v : String} {c : XMLElem}
    (h : findDescAttr e k v = some c) : c.attrGet k = some v := by
  have := List.find?_some h
  exact attrIs_iff.mp this

theorem okTake_mem {α : Type} {l : List (Except PyErr α)} {a : α}
    (h : a ∈ okTake l) : Except.ok a ∈ l := by
  induction l with
  | nil => simp [okTake] at h
  | cons x rest ih =>
    cases x with
    | ok b =>
      simp only [okTake, List.mem_cons] at h
      rcases h with h | h
      · subst h
        exact List.mem_cons_self _ _
      · exact List.mem_cons_of_mem _ (ih h)
    | error e => simp [okTake] at h

theorem mem_okTake_of_all {α : Type} {l : List (Except PyErr α)} {a : α}
    (hall : ∀ x ∈ l, ∃ b, x = Except.ok b) (h : Except.ok a ∈ l) :
    a ∈ okTake l := by
  induction l with
  | nil => simp at h
  | cons x rest ih =>
    obtain ⟨b, hb⟩ := hall x (List.mem_cons_self x rest)
    subst hb
    simp only [List.mem_cons] at h
    simp only [okTake, List.mem_cons]
    rcases h with h | h
    · exact Or.inl (Except.ok.inj h)
    · exact Or.inr (ih (fun y hy => hall y (List.mem_cons_of_mem _ hy)) h)

theorem get_child_ok {n : HGraphNode} {cn : String} {m : HGraphNode}
    (h : HGraphNode.get_child n cn = .ok m) :
    ∃ c, findDescAttr n.xml "name" cn = some c ∧ c.truthy = true ∧
      m = ⟨c, n.xml :: n.parentChain⟩ := by
  unfold HGraphNode.get_child at h
  cases hf : findDescAttr n.xml "name" cn with
  | none => rw [hf] at h; exact absurd h (by simp)
  | some c =>
    rw [hf] at h
    by_cases ht : c.truthy = true
    · refine ⟨c, rfl, ht, ?_⟩
      simp only [ht, if_true] at h
      exact (Except.ok.inj h).symm
    · simp only [ht, if_false] at h
      simp at h

theorem pySplit_no_sep {sep : Char} {l : List Char} (h : sep ∉ l) :
    pySplit sep l = [l] := by
  induction l with
  | nil => rfl
  | cons c rest ih =>
    have hc : ¬c = sep := fun hh => h (hh ▸ List.mem_cons_self c rest)
    have hr : sep ∉ rest := fun hm => h (List.mem_cons_of_mem c hm)
    simp only [pySplit, if_neg hc, ih hr]

theorem pySplit_append {sep : Char} {a b : List Char} (h : sep ∉ a) :
    pySplit sep (a ++ sep :: b) = a :: pySplit sep b := by
  induction a with
  | nil => simp [pySplit]
  | cons c a' ih =>
    have hc : ¬c = sep := fun hh => h (hh ▸ List.mem_cons_self c a')
    have ha : sep ∉ a' := fun hm => h (List.mem_cons_of_mem c hm)
    simp only [List.cons_append, pySplit, if_neg hc, List.append_eq, ih ha]

theorem not_dash_mem_of_digits {l : List Char} (h : l.all Char.isDigit = true) :
    ('-') ∉ l := by
  intro hm
  have := List.all_eq_true.mp h _ hm
  exact absurd this (by decide)

theorem attrE_ok {e : XMLElem} {k v : String} (h : attrE e k = .ok v) :
    e.attrGet k = some v := by
  unfold attrE at h
  cases hg : e.attrGet k with
  | none => rw [hg] at h; exact absurd h (by simp)
  | some w =>
    rw [hg] at h
    injection h with h
    exact congrArg some h

theorem buildClipDict_sound {uids : List String} {scenes : List XMLElem}
    {pairs : List (String × XMLElem)}
    (h : buildClipDict uids scenes = .ok pairs) :
    ∀ q ∈ pairs, q.2.attrGet "id" = some q.1 := by
  induction scenes generalizing pairs with
  | nil =>
    intro q hq
    unfold buildClipDict at h
    injection h with h
    subst h
    exact absurd hq (List.not_mem_nil q)
  | cons s rest ih =>
    intro q hq
    unfold buildClipDict at h
    cases hi : attrE s "id" with
    | error e => rw [hi, exbind_err] at h; exact absurd h (by simp)
    | ok i =>
      rw [hi, exbind_ok] at h
      cases ht : buildClipDict uids rest with
      | error e => rw [ht, exbind_err] at h; exact absurd h (by simp)
      | ok tail =>
        rw [ht, exbind_ok] at h
        have h' : (if uids.contains i then (i, s) :: tail else tail) = pairs :=
          Except.ok.inj h
        by_cases hc : uids.contains i = true
        · rw [if_pos hc] at h'
          rw [← h'] at hq
          rcases List.mem_cons.mp hq with hq | hq
          · rw [hq]
            exact attrE_ok hi
          · exact ih ht q hq
        · rw [if_neg hc] at h'
          rw [← h'] at hq
          exact ih ht q hq

theorem dictGetE_ok {pairs : List (String × XMLElem)} {k : String} {s : XMLElem}
    (h : dictGetE pairs k = .ok s) : (k, s) ∈ pairs := by
  unfold dictGetE at h
  cases hf : pairs.reverse.find? (fun p => decide (p.1 = k)) with
  | none => rw [hf] at h; exact absurd h (by simp)
  | some q =>
    rw [hf] at h
    simp only [Option.map_some'] at h
    injection h with h
    have hqk : q.1 = k := by
      have := List.find?_some hf
      exact of_decide_eq_true this
    have hqmem : q ∈ pairs := List.mem_reverse.mp (List.mem_of_find?_eq_some hf)
    have : q = (k, s) := by
      cases q
      simp_all
    rw [← this]
    exact hqmem

theorem numberLoop_spec (p : SBoardPanel) (pu : String)
    (hpu : p.xml.attrGet "id" = some pu) :
    ∀ (l : List (Except PyErr SBoardPanel)) (us : List String),
      extractUids l = .ok us →
      ∀ k, numberLoop p l k = .ok ((firstIndexOf us pu).map (fun i => i + k + 1)) := by
  intro l
  induction l with
  | nil =>
    intro us h k
    unfold extractUids at h
    injection h with h
    rw [← h]
    rfl
  | cons x rest ih =>
    intro us h k
    cases x with
    | error e =>
      unfold extractUids at h
      exact absurd h (by simp)
    | ok q =>
      unfold extractUids at h
      cases hu : attrE q.xml "id" with
      | error e => rw [hu, exbind_err] at h; exact absurd h (by simp)
      | ok u =>
        rw [hu, exbind_ok] at h
        cases htl : extractUids rest with
        | error e => rw [htl, exbind_err] at h; exact absurd h (by simp)
        | ok tail =>
          rw [htl, exbind_ok] at h
          have hus : u :: tail = us := Except.ok.inj h
          rw [← hus]
          unfold numberLoop
          rw [hu, exbind_ok]
          have hpuE : attrE p.xml "id" = .ok pu := by
            unfold attrE
            rw [hpu]
          rw [hpuE, exbind_ok]
          by_cases heq : u = pu
          · rw [if_pos heq]
            simp only [firstIndexOf, if_pos heq, Option.map_some', Except.ok.injEq,
              Option.some.injEq]
            omega
          · rw [if_neg heq]
            rw [ih tail htl (k + 1)]
            simp only [firstIndexOf, if_neg heq]
            cases hfi : firstIndexOf tail pu with
            | none => simp
            | some i =>
              simp only [hfi, Option.map_some', Except.ok.injEq, Option.some.injEq]
              omega

theorem linkRecords_mem {r pXml : XMLElem} {k v : String} :
    r ∈ linkRecords pXml k v ↔
      r ∈ (childrenTag pXml "linkedlist").flatMap XMLElem.descendants ∧
        attrIs k v r = true := by
  unfold linkRecords
  exact List.mem_filter

theorem iter_output_nodes_eq (A : HGraphNode) (pXml : XMLElem)
    (rest : List XMLElem) (nA : String)
    (hchain : A.parentChain = pXml :: rest)
    (hname : A.xml.attrGet "name" = some nA) :
    HGraphNode.iter_output_nodes A =
      (linkRecords pXml "out" nA).map (fun r =>
        match r.attrGet "in" with
        | none => .error .keyError
        | some inName => HGraphNode.get_child ⟨pXml, rest⟩ inName) := by
  unfold HGraphNode.iter_output_nodes
  rw [hchain, hname]

theorem iter_input_nodes_eq (B : HGraphNode) (pXml : XMLElem)
    (rest : List XMLElem) (nB : String)
    (hchain : B.parentChain = pXml :: rest)
    (hname : B.xml.attrGet "name" = some nB) :
    HGraphNode.iter_input_nodes B =
      (linkRecords pXml "in" nB).map (fun r =>
        match r.attrGet "out" with
        | none => .error .keyError
        | some outName => HGraphNode.get_child ⟨pXml, rest⟩ outName) := by
  unfold HGraphNode.iter_input_nodes
  rw [hchain, hname]

/-! ## Claim theorems -/

/-- C1: the claim says a keyed lookup raises its not-found error exactly when
zero tree nodes match, and returns a wrapper over the first match otherwise.
Code-bug evidence: in this document exactly one node matches name Leaf under
the root, yet get_child raises ChildNotFoundError, because the guard
(if not current_node) uses Python element truthiness and the match has no
child elements. -/
theorem c1_get_child_raises_on_childless_match :
    countMatches c1Root "name" "Leaf" = 1 ∧
    HGraphNode.get_child ⟨c1Root, []⟩ "Leaf" = .error .childNotFound := by
  decide

/-- C2 counterexample: the synthesized root of this graph is named Top, but
get_path returns the string slash-Top, which differs from the bare name Top
the claim requires. -/
theorem c2_root_path_counterexample :
    HGraphNode.nameE ⟨c2Top, []⟩ = .ok "Top" ∧
    HGraphNode.get_path ⟨c2Top, []⟩ = .ok "/Top" ∧
    HGraphNode.get_path ⟨c2Top, []⟩ ≠ .ok "Top" := by
  decide

/-- C2 (amended): a root node built with no parent has parent None, is_root
true, the fixed ROOT type, and its path is a slash followed by its own name
(the legacy parser variant returns the bare name). -/
theorem c2_root_properties (x : XMLElem) (nm : String)
    (h : x.attrGet "name" = some nm) :
    HGraphNode.parent ⟨x, []⟩ = none ∧
    HGraphNode.is_root ⟨x, []⟩ = true ∧
    HGraphNode.nodeType ⟨x, []⟩ = .ok "ROOT" ∧
    HGraphNode.get_path ⟨x, []⟩ = .ok ("/" ++ nm) ∧
    HGraphNode.get_path_legacy ⟨x, []⟩ = .ok nm := by
  refine ⟨rfl, rfl, rfl, ?_, ?_⟩
  · simp [HGraphNode.get_path, getPathChain, attrE, h]
  · simp [HGraphNode.get_path_legacy, getPathChainLegacy, attrE, h]

/-- C2 witness: the amended root properties evaluated on a concrete root
element named Top. -/
theorem c2_root_properties_witness :
    c2Top.attrGet "name" = some "Top" ∧
    (HGraphNode.parent ⟨c2Top, []⟩ = none ∧
     HGraphNode.is_root ⟨c2Top, []⟩ = true ∧
     HGraphNode.nodeType ⟨c2Top, []⟩ = .ok "ROOT" ∧
     HGraphNode.get_path ⟨c2Top, []⟩ = .ok ("/" ++ "Top") ∧
     HGraphNode.get_path_legacy ⟨c2Top, []⟩ = .ok "Top") :=
  ⟨by decide, c2_root_properties c2Top "Top" (by decide)⟩

/-- C9: when get_child succeeds on node n, the returned wrapper's parent is
n itself and its path is n's path joined with a slash and the searched name,
regardless of how deep in the tree the matching element sits. -/
theorem c9_get_child_parent_and_path (n m : HGraphNode) (c pn : String)
    (h : HGraphNode.get_child n c = .ok m)
    (hp : HGraphNode.get_path n = .ok pn) :
    m.parent = some n ∧ m.get_path = .ok (pn ++ "/" ++ c) := by
  obtain ⟨d, hf, ht, hm⟩ := get_child_ok h
  subst hm
  refine ⟨rfl, ?_⟩
  have hdn : d.attrGet "name" = some c := findDescAttr_attr hf
  have hp' : getPathChain n.parentChain n.xml = .ok pn := hp
  show getPathChain (n.xml :: n.parentChain) d = _
  rw [getPathChain, hp']
  simp only [attrE, hdn]
  rfl

/-- C9 witness: get_child from the root finds the node Deep nested two
levels down inside the group G; the returned wrapper's parent is the root
itself and its path omits G. -/
theorem c9_witness :
    HGraphNode.get_child ⟨c9Top, []⟩ "Deep" = .ok ⟨c9Deep, [c9Top]⟩ ∧
    (HGraphNode.parent ⟨c9Deep, [c9Top]⟩ = some ⟨c9Top, []⟩ ∧
     HGraphNode.get_path ⟨c9Deep, [c9Top]⟩ = .ok ("/Top" ++ "/" ++ "Deep")) :=
  ⟨by decide,
   c9_get_child_parent_and_path ⟨c9Top, []⟩ ⟨c9Deep, [c9Top]⟩ "Deep" "/Top"
     (by decide) (by decide)⟩

/-- C5: a warp-sequence record whose exposures attribute is a plain digit
string N resolves to the range (N, N), and one of the dashed form N-M
resolves to (N, M). -/
theorem c5_exposure_parsing (tl : XMLElem) (uid : String) (ws : XMLElem) (s : String)
    (hws : findWarpSeq (iterTag tl "warpSeq") uid = .ok ws)
    (hexp : ws.attrGet "exposures" = some s) :
    (s.data ≠ [] → s.data.all Char.isDigit = true →
      get_timeline_range tl uid = .ok (digitsToNat s.data, digitsToNat s.data)) ∧
    (∀ a b : List Char, s.data = a ++ '-' :: b → a ≠ [] → b ≠ [] →
      a.all Char.isDigit = true → b.all Char.isDigit = true →
      get_timeline_range tl uid = .ok (digitsToNat a, digitsToNat b)) := by
  have hbase : get_timeline_range tl uid =
      (match pySplit '-' s.data with
       | [_] => do
         let n ← pyInt s
         pure (n, n)
       | a :: b :: _ => do
         let x ← pyIntL a
         let y ← pyIntL b
         pure (x, y)
       | [] => .error .indexError) := by
    unfold get_timeline_range
    rw [hws, exbind_ok]
    simp only [attrE, hexp]
    rw [exbind_ok]
  constructor
  · intro hne hdig
    have hns : ('-') ∉ s.data := not_dash_mem_of_digits hdig
    have hpy : pyInt s = .ok (digitsToNat s.data) := by
      unfold pyInt pyIntL
      rw [if_pos (And.intro hne hdig)]
    rw [hbase, pySplit_no_sep hns]
    show (do
      let n ← pyInt s
      pure (n, n) : Except PyErr (Nat × Nat)) = _
    rw [hpy, exbind_ok]
    rfl
  · intro a b hs ha hb hda hdb
    have hna : ('-') ∉ a := not_dash_mem_of_digits hda
    have hnb : ('-') ∉ b := not_dash_mem_of_digits hdb
    have hsplit : pySplit '-' s.data = [a, b] := by
      rw [hs, pySplit_append hna, pySplit_no_sep hnb]
    have hpa : pyIntL a = .ok (digitsToNat a) := by
      unfold pyIntL
      rw [if_pos (And.intro ha hda)]
    have hpb : pyIntL b = .ok (digitsToNat b) := by
      unfold pyIntL
      rw [if_pos (And.intro hb hdb)]
    rw [hbase, hsplit]
    show (do
      let x ← pyIntL a
      let y ← pyIntL b
      pure (x, y) : Except PyErr (Nat × Nat)) = _
    rw [hpa, exbind_ok, hpb, exbind_ok]
    rfl

/-- C5 witness: on the concrete column, the single-frame exposure 7 yields
(7, 7) and the dashed exposure 12-34 yields (12, 34). -/
theorem c5_exposure_parsing_witness :
    get_timeline_range c5Col "x1" = .ok (7, 7) ∧
    get_timeline_range c5Col "x2" = .ok (12, 34) :=
  ⟨(c5_exposure_parsing c5Col "x1"
      (xe "warpSeq" [("id", "x1"), ("exposures", "7")] []) "7"
      (by decide) (by decide)).1 (by decide) (by decide),
   (c5_exposure_parsing c5Col "x2"
      (xe "warpSeq" [("id", "x2"), ("exposures", "12-34")] []) "12-34"
      (by decide) (by decide)).2 ['1', '2'] ['3', '4']
      (by decide) (by decide) (by decide) (by decide) (by decide)⟩

/-- C4: when the scene's global range, the panel's scene-local range and the
panel's length all resolve, the panel's global timeline range starts at the
sum of the two range starts and ends at that sum plus the length. -/
theorem c4_panel_absolute_range (p : SBoardPanel) (s1 s2 p1 p2 L : Nat)
    (h1 : p.scene.timeline_range = .ok (s1, s2))
    (h2 : p.scene_range = .ok (p1, p2))
    (h3 : p.length = .ok L) :
    p.timeline_range = .ok (s1 + p1, s1 + p1 + L) := by
  unfold SBoardPanel.timeline_range
  rw [h1, exbind_ok, h2, exbind_ok, h3, exbind_ok]
  rfl

/-- C4 witness: in the concrete project the scene sits at 10-20 on the
global timeline, the panel at 5 within the scene with 8 frames, and the
panel's global range evaluates to (15, 23). -/
theorem c4_panel_absolute_range_witness :
    SBoardScene.timeline_range c4Scene = .ok (10, 20) ∧
    SBoardPanel.scene_range c4PanelW = .ok (5, 5) ∧
    SBoardPanel.length c4PanelW = .ok 8 ∧
    SBoardPanel.timeline_range c4PanelW = .ok (15, 23) :=
  ⟨by decide, by decide, by decide,
   c4_panel_absolute_range c4PanelW 10 20 5 5 8 (by decide) (by decide) (by decide)⟩

/-- C8: the claim says the extension lookup is case-insensitive.  Code-bug
evidence: the code passes the category name to the lowercase-keyed table
unchanged, so the name draw maps to tvg while the name Draw, differing only
in letter case, falls back to itself instead of tvg. -/
theorem c8_extension_lookup_case_sensitive :
    SBoardLibraryCategory.extension c8CatLower = .ok "tvg" ∧
    SBoardLibraryCategory.extension c8CatUpper = .ok "Draw" ∧
    SBoardLibraryCategory.extension c8CatUpper ≠ .ok "tvg" := by
  decide

/-- C6 counterexample: on this layer the column hop finds no elementSeq
node, and element returns None instead of raising a lookup error. -/
theorem c6_missing_column_returns_none :
    findColumnElementSeq c6LayerNoCol.panelXml "COL1" = none ∧
    SBoardLayer.element c6LayerNoCol = .ok none := by
  decide

/-- C6 (amended): with the drawing reference resolved, a missing column
makes element return None without raising; a resolved column with a missing
category raises AttributeError (not a lookup error); a resolved category
always returns a wrapper joining the category with the element-by-name
lookup result, which wraps no node when the element is missing. -/
theorem c6_three_hop_join (l : SBoardLayer) (dn : XMLElem) (colName : String)
    (hd : findPath3 l.xml "attrs" "drawing" "element" = some dn)
    (hcol : dn.attrGet "col" = some colName) :
    (findColumnElementSeq l.panelXml colName = none →
      SBoardLayer.element l = .ok none) ∧
    (∀ col catId elemName, findColumnElementSeq l.panelXml colName = some col →
      col.attrGet "id" = some catId → col.attrGet "val" = some elemName →
      ((findCategoryById l.projectXml catId = none →
          SBoardLayer.element l = .error .attributeError) ∧
       (∀ cat, findCategoryById l.projectXml catId = some cat →
          SBoardLayer.element l = .ok (some ⟨findDwgByName cat elemName, cat⟩)))) := by
  have hbase : SBoardLayer.element l =
      (match findColumnElementSeq l.panelXml colName with
       | none => pure none
       | some columnNode => do
         let catId ← attrE columnNode "id"
         let elemName ← attrE columnNode "val"
         match findCategoryById l.projectXml catId with
         | none => Except.error PyErr.attributeError
         | some catNode => pure (some ⟨findDwgByName catNode elemName, catNode⟩)) := by
    unfold SBoardLayer.element
    rw [hd]
    show ((do
      let colName' ← attrE dn "col"
      match findColumnElementSeq l.panelXml colName' with
      | none => pure none
      | some columnNode => do
        let catId ← attrE columnNode "id"
        let elemName ← attrE columnNode "val"
        match findCategoryById l.projectXml catId with
        | none => Except.error PyErr.attributeError
        | some catNode =>
          pure (some ⟨findDwgByName catNode elemName, catNode⟩)) :
        Except PyErr (Option SBLibElementW)) = _
    have hcolE : attrE dn "col" = .ok colName := by
      unfold attrE
      rw [hcol]
    rw [hcolE, exbind_ok]
  constructor
  · intro hnone
    rw [hbase, hnone]
    rfl
  · intro col catId elemName hsome hid hval
    have hidE : attrE col "id" = .ok catId := by
      unfold attrE
      rw [hid]
    have hvalE : attrE col "val" = .ok elemName := by
      unfold attrE
      rw [hval]
    constructor
    · intro hcatnone
      rw [hbase, hsome]
      show ((do
        let catId' ← attrE col "id"
        let elemName' ← attrE col "val"
        match findCategoryById l.projectXml catId' with
        | none => Except.error PyErr.attributeError
        | some catNode =>
          pure (some ⟨findDwgByName catNode elemName', catNode⟩)) :
          Except PyErr (Option SBLibElementW)) = _
      rw [hidE, exbind_ok, hvalE, exbind_ok, hcatnone]
    · intro cat hcat
      rw [hbase, hsome]
      show ((do
        let catId' ← attrE col "id"
        let elemName' ← attrE col "val"
        match findCategoryById l.projectXml catId' with
        | none => Except.error PyErr.attributeError
        | some catNode =>
          pure (some ⟨findDwgByName catNode elemName', catNode⟩)) :
          Except PyErr (Option SBLibElementW)) = _
      rw [hidE, exbind_ok, hvalE, exbind_ok, hcat]
      rfl

/-- C6 witness: on the fully linked concrete layer the three hops resolve
and element returns the joined wrapper over the dwg node and its
category. -/
theorem c6_three_hop_join_witness :
    SBoardLayer.element c6LayerFull = .ok (some ⟨some c6Dwg, c6Cat⟩) :=
  ((c6_three_hop_join c6LayerFull
      (xe "element" [("col", "COL1")] []) "COL1" (by decide) (by decide)).2
    (xe "elementSeq" [("id", "cat1"), ("val", "el1")] []) "cat1" "el1"
    (by decide) (by decide) (by decide)).2 c6Cat (by decide)

/-- C10: when the scene's panel enumeration and every uid read succeed, the
number accessor returns one plus the position of the first yielded panel
sharing this panel's uid, and returns None, without raising, when no yielded
panel shares it. -/
theorem c10_panel_number (p : SBoardPanel) (l : List (Except PyErr SBoardPanel))
    (us : List String) (pu : String)
    (hl : p.scene.panels = .ok l)
    (hus : extractUids l = .ok us)
    (hpu : p.xml.attrGet "id" = some pu) :
    SBoardPanel.number p = .ok ((firstIndexOf us pu).map (fun i => i + 1)) := by
  unfold SBoardPanel.number
  rw [hl, exbind_ok]
  rw [numberLoop_spec p pu hpu l us hus 0]

/-- C10 witness: in the concrete scene the panels p1 and p2 are yielded in
timeline order; the panel with uid p2 is numbered 2, and a panel whose uid
p9 is never yielded gets None rather than an error. -/
theorem c10_panel_number_witness :
    SBoardScene.panels c10Scene = .ok [.ok ⟨c10p1, c10Scene⟩, .ok ⟨c10p2, c10Scene⟩] ∧
    SBoardPanel.number c10PanelW = .ok (some 2) ∧
    SBoardPanel.number c10GhostW = .ok none :=
  ⟨by decide,
   c10_panel_number c10PanelW [.ok ⟨c10p1, c10Scene⟩, .ok ⟨c10p2, c10Scene⟩]
     ["p1", "p2"] "p2" (by decide) (by decide) (by decide),
   c10_panel_number c10GhostW [.ok ⟨c10p1, c10Scene⟩, .ok ⟨c10p2, c10Scene⟩]
     ["p1", "p2"] "p9" (by decide) (by decide) (by decide)⟩

/-- C7: when the track's column, its warp-sequence id list and the clip dict
all resolve, the yielded clips are exactly the dict entries of the id
references in reference-list order, and every successfully yielded clip node
carries the id it was looked up by; the order is therefore the column's
reference order, not the scene-table order. -/
theorem c7_clip_order (t : SBoardVideoTrack) (uid : String) (col : XMLElem)
    (uids : List String) (pairs : List (String × XMLElem))
    (h1 : t.uid = .ok uid)
    (h2 : findChildPathAttr t.timelineXml "columns" "column" "name" uid = some col)
    (h3 : mapAttrs "id" (childrenTag col "warpSeq") = .ok uids)
    (h4 : buildClipDict uids (scenesOf t.projectXml) = .ok pairs) :
    t.clips = .ok (uids.map (fun u => dictGetE pairs u)) ∧
    ∀ u s, dictGetE pairs u = .ok s → s.attrGet "id" = some u := by
  constructor
  · unfold SBoardVideoTrack.clips
    rw [h1, exbind_ok, h2]
    show ((do
      let uids' ← mapAttrs "id" (childrenTag col "warpSeq")
      let pairs' ← buildClipDict uids' (scenesOf t.projectXml)
      pure (uids'.map (fun u => dictGetE pairs' u))) :
        Except PyErr (List (Except PyErr XMLElem))) = _
    rw [h3, exbind_ok, h4, exbind_ok]
    rfl
  · intro u s h
    exact buildClipDict_sound h4 (u, s) (dictGetE_ok h)

/-- C7 witness: the concrete column references s2 before s1 while the scene
table lists s1 before s2; the yielded clips follow the column order. -/
theorem c7_clip_order_witness :
    SBoardVideoTrack.clips c7TrackW = .ok [.ok c7s2, .ok c7s1] ∧
    scenesOf c7Proj = [c7s1, c7s2] :=
  ⟨(c7_clip_order c7TrackW "COLV"
      (xe "column" [("name", "COLV")]
        [xe "warpSeq" [("id", "s2")] [], xe "warpSeq" [("id", "s1")] []])
      ["s2", "s1"] [("s1", c7s1), ("s2", c7s2)]
      (by decide) (by decide) (by decide) (by decide)).1,
   by decide⟩

/-- C3 counterexample: two sibling nodes share the name A; the second of
them yields B through its output-nodes iteration, but B's input-nodes
iteration resolves the out-name to the first node named A, so the original
node is never yielded back. -/
theorem c3_duplicate_name_counterexample :
    HGraphNode.parent c3NodeA = some c3P ∧
    HGraphNode.parent c3NodeB = some c3P ∧
    c3NodeB ∈ okTake (HGraphNode.iter_output_nodes c3NodeA) ∧
    c3NodeA ∉ okTake (HGraphNode.iter_input_nodes c3NodeB) := by
  decide

/-- C3 (amended): if B is yielded by A's output-nodes iteration, A is the
node the shared parent's get_child resolves A's own name to, and B's
input-nodes iteration raises no exception, then A is yielded by B's
input-nodes iteration. -/
theorem c3_output_input_inverse (P A B : HGraphNode) (nA : String)
    (hA : A.parent = some P)
    (hname : A.xml.attrGet "name" = some nA)
    (hres : HGraphNode.get_child P nA = .ok A)
    (hB : B ∈ okTake (HGraphNode.iter_output_nodes A))
    (hok : ∀ x ∈ HGraphNode.iter_input_nodes B, ∃ m, x = Except.ok m) :
    A ∈ okTake (HGraphNode.iter_input_nodes B) := by
  have hchain : A.parentChain = P.xml :: P.parentChain := by
    unfold HGraphNode.parent at hA
    cases hc : A.parentChain with
    | nil => rw [hc] at hA; exact absurd hA (by simp)
    | cons p r =>
      rw [hc] at hA
      have hPr := Option.some.inj hA
      rw [← hPr]
  rw [iter_output_nodes_eq A P.xml P.parentChain nA hchain hname] at hB
  obtain ⟨r, hr, hfr⟩ := List.mem_map.mp (okTake_mem hB)
  cases hin : r.attrGet "in" with
  | none =>
    rw [hin] at hfr
    exact Except.noConfusion hfr
  | some inName =>
    rw [hin] at hfr
    obtain ⟨c, hfc, htr, hBeq⟩ := get_child_ok hfr
    have hBname : B.xml.attrGet "name" = some inName := by
      rw [hBeq]
      exact findDescAttr_attr hfc
    have hBchain : B.parentChain = P.xml :: P.parentChain := by
      rw [hBeq]
    obtain ⟨hrbase, hroutIs⟩ := linkRecords_mem.mp hr
    have hrout : r.attrGet "out" = some nA := attrIs_iff.mp hroutIs
    have hrin : r ∈ linkRecords P.xml "in" inName :=
      linkRecords_mem.mpr ⟨hrbase, attrIs_iff.mpr hin⟩
    have hAval : (match r.attrGet "out" with
        | none => (.error .keyError : Except PyErr HGraphNode)
        | some outName =>
          HGraphNode.get_child ⟨P.xml, P.parentChain⟩ outName) = .ok A := by
      rw [hrout]
      exact hres
    have hmem : Except.ok A ∈ HGraphNode.iter_input_nodes B := by
      rw [iter_input_nodes_eq B P.xml P.parentChain inName hBchain hBname]
      exact List.mem_map.mpr ⟨r, hrin, hAval⟩
    exact mem_okTake_of_all hok hmem

/-- C3 witness: in the well-formed graph the Drawing node feeds the
Composite node; the amended inverse property instantiated there yields
Drawing back from Composite's input-nodes iteration. -/
theorem c3_output_input_inverse_witness :
    c3wB ∈ okTake (HGraphNode.iter_output_nodes c3wA) ∧
    c3wA ∈ okTake (HGraphNode.iter_input_nodes c3wB) :=
  ⟨by decide,
   c3_output_input_inverse c3wP c3wA c3wB "Drawing"
     (by decide) (by decide) (by decide) (by decide)
     (by
       intro x hx
       have hl : HGraphNode.iter_input_nodes c3wB = [Except.ok c3wA] := by decide
       rw [hl] at hx
       simp only [List.mem_singleton] at hx
       exact ⟨c3wA, hx⟩)⟩
